import Mathlib

/-!
Shallow embedding of the virtual-pet system's state engine and metrics
aggregator, translated from:

- `pet-bot/src/bot.ts` (Discord command handlers: feed / play / reset,
  the feed/play auto-revert timers, `getPetState`, `initialState`,
  `logHappinessChange`, `logCommandMetrics`);
- the pet-engine `updatePetBehavior` (autonomous decay / activity step,
  `logActivityChange`, engine `getPetState`);
- `pet-metrics/src/types.ts` (the parsers, `filterByTimeRange`,
  `sortByTimestamp`, `calculateAverage`, `getHappinessTrends`,
  `getActivityDistribution`, `getSystemMetrics`, `runDataCleanup`).

Times are milliseconds since epoch, modelled as `Int` (`Date.now()`).
JavaScript numbers appearing in metric records are modelled as `ℚ`;
the values involved in the verified properties are small integers, so
no floating-point rounding is in play.  `Math.random()` is modelled as
an explicit rational argument.  JSON objects are modelled as ordered
key/value lists; `JSON.parse ∘ JSON.stringify` round-tripping is taken
as the identity on these objects.
-/

/-- The four activity values of `PetState['activity']`. -/
inductive Activity where
  | idle
  | playing
  | sleeping
  | eating
deriving DecidableEq, Repr

/-- `PetState` from `pet-bot/src/types/pet.ts`. -/
structure PetState where
  happiness : Int
  activity : Activity
  lastUpdate : Int
deriving DecidableEq, Repr

/-- `initialState` in `bot.ts`: a module-level constant whose `lastUpdate`
is `Date.now()` evaluated once at process start (`startup`). -/
def initialState (startup : Int) : PetState :=
  ⟨50, Activity.idle, startup⟩

/-- The `feed` command handler's state computation in `bot.ts`:
`happiness := Math.min(100, happiness + 15)`, activity `eating`,
`lastUpdate := Date.now()`. -/
def feedState (s : PetState) (now : Int) : PetState :=
  ⟨min 100 (s.happiness + 15), Activity.eating, now⟩

/-- The `play` command handler's state computation in `bot.ts`:
`happiness := Math.min(100, happiness + 10)`, activity `playing`,
`lastUpdate := Date.now()`. -/
def playState (s : PetState) (now : Int) : PetState :=
  ⟨min 100 (s.happiness + 10), Activity.playing, now⟩

/-- The body of the feed/play auto-revert `setTimeout` callbacks in
`bot.ts`: read the current state and write it back with activity set to
`idle`, unconditionally (`{ ...currentState, activity: 'idle' }`). -/
def revertWrite (s : PetState) : PetState :=
  { s with activity := Activity.idle }

/-- Happiness decay of the engine's `updatePetBehavior`:
`Math.floor(timeSinceLastUpdate / (5 * 60 * 1000))`. `Math.floor` of an
exact integer quotient is floor division, `Int.fdiv`. -/
def decayOf (elapsed : Int) : Int :=
  Int.fdiv elapsed (5 * 60 * 1000)

/-- The activity branch of `updatePetBehavior`.  `newActivity` is
initialised to `'idle'`; the `if` ladder handles `idle` and
`playing || sleeping` only, so an `eating` state falls through to the
initial `'idle'`. -/
def tickActivity (cur : Activity) (newHappiness : Int) (rand : ℚ)
    (elapsed : Int) : Activity :=
  match cur with
  | Activity.idle =>
      if newHappiness < 30 then Activity.sleeping
      else if rand < 3/10 then Activity.playing
      else if rand < 1/2 then Activity.sleeping
      else Activity.idle
  | Activity.playing =>
      if elapsed > 30000 then Activity.idle else Activity.playing
  | Activity.sleeping =>
      if elapsed > 30000 then Activity.idle else Activity.sleeping
  | Activity.eating => Activity.idle

/-- The new state computed by `updatePetBehavior` (before the
changed-state check); `rand` is the `Math.random()` draw. -/
def tickCompute (s : PetState) (now : Int) (rand : ℚ) : PetState :=
  let elapsed := now - s.lastUpdate
  let newHappiness := max 0 (s.happiness - decayOf elapsed)
  ⟨newHappiness, tickActivity s.activity newHappiness rand elapsed, now⟩

/-- `updatePetBehavior` including its final guard: the write is skipped
when neither happiness nor activity changed, leaving the stored state
(and its `lastUpdate`) untouched. -/
def tickStep (s : PetState) (now : Int) (rand : ℚ) : PetState :=
  let n := tickCompute s now rand
  if n.happiness = s.happiness ∧ n.activity = s.activity then s else n

/-- One write by the single logical writer path: the three bot commands,
a feed/play auto-revert timer firing, or an engine tick.  Every
constructor carries the wall-clock instant at which it executes. -/
inductive PetOp where
  | feed (now : Int)
  | play (now : Int)
  | reset (now : Int)
  | revert (now : Int)
  | tick (now : Int) (rand : ℚ)

/-- The wall-clock instant at which an operation executes. -/
def opTime : PetOp → Int
  | PetOp.feed now => now
  | PetOp.play now => now
  | PetOp.reset now => now
  | PetOp.revert now => now
  | PetOp.tick now _ => now

/-- The state transition of a single operation.  `reset` writes the
module constant `initialState` (stamped with the process `startup`
time), exactly as `setPetState(initialState)` does in `bot.ts`. -/
def petStep (startup : Int) (s : PetState) : PetOp → PetState
  | PetOp.feed now => feedState s now
  | PetOp.play now => playState s now
  | PetOp.reset _ => initialState startup
  | PetOp.revert _ => revertWrite s
  | PetOp.tick now rand => tickStep s now rand

/-- Run a sequence of writer-path operations from a starting state. -/
def runPet (startup : Int) (s : PetState) (ops : List PetOp) : PetState :=
  List.foldl (petStep startup) s ops

/-- The operations occur in wall-clock order, the first no earlier
than `t`. -/
def Chronological : Int → List PetOp → Prop
  | _, [] => True
  | t, op :: rest => t ≤ opTime op ∧ Chronological (opTime op) rest

/-- Invariant carried along a run observed at wall-clock time `t`:
happiness in range, the stored `lastUpdate` not in the future, and the
process start not in the future. -/
def PetInv (startup t : Int) (s : PetState) : Prop :=
  0 ≤ s.happiness ∧ s.happiness ≤ 100 ∧ s.lastUpdate ≤ t ∧ startup ≤ t

lemma decayOf_nonneg {elapsed : Int} (h : 0 ≤ elapsed) : 0 ≤ decayOf elapsed :=
  Int.fdiv_nonneg h (by norm_num)

lemma petStep_inv {startup t : Int} {s : PetState} (op : PetOp)
    (ht : t ≤ opTime op) (h : PetInv startup t s) :
    PetInv startup (opTime op) (petStep startup s op) := by
  obtain ⟨h0, h1, h2, h3⟩ := h
  cases op with
  | feed now =>
      simp only [petStep, feedState, opTime, PetInv] at *
      omega
  | play now =>
      simp only [petStep, playState, opTime, PetInv] at *
      omega
  | reset now =>
      simp only [petStep, initialState, opTime, PetInv] at *
      omega
  | revert now =>
      simp only [petStep, revertWrite, opTime, PetInv] at *
      omega
  | tick now rand =>
      have hd : 0 ≤ decayOf (now - s.lastUpdate) :=
        decayOf_nonneg (by simp only [opTime] at ht; omega)
      simp only [petStep, tickStep, tickCompute, opTime, PetInv] at *
      split
      · omega
      · simp only []
        omega

lemma runPet_inv {startup : Int} {s : PetState} {t : Int} {ops : List PetOp}
    (hchron : Chronological t ops) (h : PetInv startup t s) :
    ∃ t', PetInv startup t' (runPet startup s ops) := by
  induction ops generalizing s t with
  | nil => exact ⟨t, h⟩
  | cons op rest ih =>
      obtain ⟨hle, hrest⟩ := hchron
      exact ih hrest (petStep_inv op hle h)

/-- C1: for every chronological sequence of feed / play / reset /
auto-revert / tick operations started from a state with happiness in
[0, 100] (and a `lastUpdate` not in the future), the resulting
happiness stays within [0, 100]: feed adds 15 clamped to 100, play adds
10 clamped to 100, and tick's decayed happiness is floored at 0. -/
theorem c1_happiness_bounds (startup t0 : Int) (s0 : PetState)
    (ops : List PetOp)
    (hlo : 0 ≤ s0.happiness) (hhi : s0.happiness ≤ 100)
    (hlu : s0.lastUpdate ≤ t0) (hst : startup ≤ t0)
    (hchron : Chronological t0 ops) :
    0 ≤ (runPet startup s0 ops).happiness ∧
      (runPet startup s0 ops).happiness ≤ 100 := by
  obtain ⟨t', h0, h1, -, -⟩ := runPet_inv hchron ⟨hlo, hhi, hlu, hst⟩
  exact ⟨h0, h1⟩

/-- Witness for C1 at a concrete chronological trace. -/
theorem c1_happiness_bounds_witness :
    0 ≤ (runPet 0 ⟨50, Activity.idle, 0⟩
          [PetOp.feed 10, PetOp.tick 20 (3/4), PetOp.reset 30,
           PetOp.play 40, PetOp.revert 50]).happiness ∧
      (runPet 0 ⟨50, Activity.idle, 0⟩
          [PetOp.feed 10, PetOp.tick 20 (3/4), PetOp.reset 30,
           PetOp.play 40, PetOp.revert 50]).happiness ≤ 100 :=
  c1_happiness_bounds 0 0 ⟨50, Activity.idle, 0⟩
    [PetOp.feed 10, PetOp.tick 20 (3/4), PetOp.reset 30,
     PetOp.play 40, PetOp.revert 50]
    (by norm_num) (by norm_num) (by norm_num) (by norm_num)
    (by norm_num [Chronological, opTime])

/-- C2: the claim fails on the code.  `updatePetBehavior` initialises
`newActivity` to `'idle'` and its branch ladder handles only `idle` and
`playing || sleeping`, so from any `eating` state — however recent —
the computed activity is `idle`, the changed-state guard sees an
activity change, and the write goes through: a tick always drives an
active `eating` state to `idle` without waiting for the feed
auto-revert timer. -/
theorem c2_tick_overrides_eating (h lu now : Int) (rand : ℚ) :
    (tickCompute ⟨h, Activity.eating, lu⟩ now rand).activity = Activity.idle ∧
      (tickStep ⟨h, Activity.eating, lu⟩ now rand).activity = Activity.idle := by
  constructor
  · rfl
  · simp [tickStep, tickCompute, tickActivity]

/-- C4: the claim fails on the code.  With process startup at time 0,
`feed` at time 1000 stores `lastUpdate = 1000`; the subsequent `reset`
at time 2000 writes the module constant `initialState`, whose
`lastUpdate` was frozen at startup, storing `lastUpdate = 0 < 1000`:
the persisted `lastUpdate` is not non-decreasing across writes. -/
theorem c4_reset_lastUpdate_decreases :
    (runPet 0 (initialState 0) [PetOp.feed 1000]).lastUpdate = 1000 ∧
      (runPet 0 (initialState 0)
        [PetOp.feed 1000, PetOp.reset 2000]).lastUpdate = 0 ∧
      (0 : Int) < 1000 := by
  refine ⟨rfl, rfl, by norm_num⟩

/-- C5: the claim fails on the code.  `feed` at time 0 schedules an
auto-revert for time 5000; `play` at time 1000 moves the activity to
`playing`.  When the stale feed revert fires at time 5000 its callback
reads the current state and unconditionally writes `activity: 'idle'`
(no compare-and-swap, no cancellation), overwriting the intervening
`playing` state. -/
theorem c5_stale_revert_forces_idle :
    (runPet 0 (initialState 0)
        [PetOp.feed 0, PetOp.play 1000]).activity = Activity.playing ∧
      (runPet 0 (initialState 0)
        [PetOp.feed 0, PetOp.play 1000, PetOp.revert 5000]).activity =
        Activity.idle := by
  exact ⟨rfl, rfl⟩

/-- C9: `tickCompute` decays happiness by exactly
`floor(elapsed / (5 minutes))`, clamped below at 0: for non-negative
elapsed time the new happiness is `max 0 (happiness - elapsed / 300000)`
(integer floor division); from happiness 40 with 15 minutes elapsed the
result is 37; with zero elapsed time happiness is unchanged, both in
the raw computation and through the changed-state guard. -/
theorem c9_decay_formula :
    (∀ (s : PetState) (now : Int) (rand : ℚ),
        (tickCompute s now rand).happiness =
          max 0 (s.happiness - (now - s.lastUpdate) / (5 * 60 * 1000))) ∧
      (∀ rand : ℚ,
        (tickCompute ⟨40, Activity.idle, 0⟩ 900000 rand).happiness = 37) ∧
      (∀ rand : ℚ,
        (tickCompute ⟨80, Activity.idle, 100⟩ 100 rand).happiness = 80) ∧
      (∀ rand : ℚ,
        (tickStep ⟨80, Activity.idle, 100⟩ 100 rand).happiness = 80) := by
  refine ⟨?_, ?_, ?_, ?_⟩
  · intro s now rand
    simp only [tickCompute, decayOf]
    rw [Int.fdiv_eq_ediv _ (by norm_num)]
  · intro rand; rfl
  · intro rand; rfl
  · intro rand
    simp only [tickStep]
    split
    · rfl
    · rfl

/-- A JSON primitive as it appears in the metric records: a string or a
number (JS numbers modelled as ℚ). -/
inductive JVal where
  | s (v : String)
  | n (v : ℚ)
deriving DecidableEq, Repr

/-- A parsed JSON object: an ordered list of key/value pairs. -/
def JObj := List (String × JVal)

/-- Property access `obj.key`: the first binding of the key, if any. -/
def JObj.get (o : JObj) (k : String) : Option JVal :=
  (o.find? (fun p => p.1 == k)).map (fun p => p.2)

/-- `isValidActivity` from `pet-metrics/src/utils.ts`:
membership of the string in the four activity names. -/
def isValidActivity (a : String) : Bool :=
  ["idle", "playing", "sleeping", "eating"].contains a

/-- `ActivityEntry` from `pet-metrics/src/types.ts`; the activity is
kept as the validated string, as the JS object does. -/
structure ActivityEntry where
  activity : String
  timestamp : ℚ
deriving DecidableEq, Repr

/-- `HappinessEntry` from `pet-metrics/src/types.ts` (the fields the
service reads: `newValue` and `timestamp`). -/
structure HappinessEntry where
  newValue : ℚ
  timestamp : ℚ
deriving DecidableEq, Repr

/-- `ResponseTimeEntry` from `pet-metrics/src/types.ts`. -/
structure ResponseTimeEntry where
  responseTime : ℚ
  timestamp : ℚ
deriving DecidableEq, Repr

/-- `parseActivityEntry` from `utils.ts`: null unless `parsed.activity`
is one of the four activity strings and `parsed.timestamp` is a
number. -/
def parseActivityEntry (o : JObj) : Option ActivityEntry :=
  match o.get "activity", o.get "timestamp" with
  | some (JVal.s a), some (JVal.n t) =>
      if isValidActivity a then some ⟨a, t⟩ else none
  | _, _ => none

/-- `parseHappinessEntry` from `utils.ts`: null unless `newValue` and
`timestamp` are numbers. -/
def parseHappinessEntry (o : JObj) : Option HappinessEntry :=
  match o.get "newValue", o.get "timestamp" with
  | some (JVal.n v), some (JVal.n t) => some ⟨v, t⟩
  | _, _ => none

/-- `parseResponseTimeEntry` from `utils.ts`: null unless
`responseTime` and `timestamp` are numbers. -/
def parseResponseTimeEntry (o : JObj) : Option ResponseTimeEntry :=
  match o.get "responseTime", o.get "timestamp" with
  | some (JVal.n r), some (JVal.n t) => some ⟨r, t⟩
  | _, _ => none

/-- The record pushed by the engine's `logActivityChange`:
`{ oldActivity, newActivity, cause, timestamp }`. -/
def activityLogRecord (old new cause : String) (t : ℚ) : JObj :=
  [("oldActivity", JVal.s old), ("newActivity", JVal.s new),
   ("cause", JVal.s cause), ("timestamp", JVal.n t)]

/-- The record pushed by the bot's `logHappinessChange`:
`{ oldValue, newValue, change, cause, timestamp }`. -/
def happinessLogRecord (oldValue newValue : ℚ) (cause : String) (t : ℚ) :
    JObj :=
  [("oldValue", JVal.n oldValue), ("newValue", JVal.n newValue),
   ("change", JVal.n (newValue - oldValue)), ("cause", JVal.s cause),
   ("timestamp", JVal.n t)]

/-- The record pushed by the bot's `logCommandMetrics`:
`{ command, responseTime, timestamp }`. -/
def responseTimeLogRecord (command : String) (responseTime t : ℚ) : JObj :=
  [("command", JVal.s command), ("responseTime", JVal.n responseTime),
   ("timestamp", JVal.n t)]

/-- `getTimeCutoff` from `utils.ts`: `Date.now() - hours * 3600000`. -/
def getTimeCutoff (now hours : ℚ) : ℚ :=
  now - hours * 60 * 60 * 1000

/-- `filterByTimeRange` from `utils.ts`: keep entries with
`timestamp > cutoff`. -/
def filterByTimeRange (data : List HappinessEntry) (now hours : ℚ) :
    List HappinessEntry :=
  data.filter (fun e => getTimeCutoff now hours < e.timestamp)

/-- `sortByTimestamp` from `utils.ts` (ascending): a comparison sort
with comparator `a.timestamp - b.timestamp`. -/
def sortByTimestamp (data : List HappinessEntry) : List HappinessEntry :=
  data.mergeSort (fun a b => decide (a.timestamp ≤ b.timestamp))

/-- `getHappinessTrends` from `metrics.ts`: parse, drop nulls, filter
to the trailing window, sort ascending by timestamp. -/
def getHappinessTrends (now hours : ℚ) (history : List JObj) :
    List HappinessEntry :=
  sortByTimestamp (filterByTimeRange (history.filterMap parseHappinessEntry)
    now hours)

/-- `ActivityDistribution` from `types.ts`. -/
structure ActivityDistribution where
  idle : Nat
  playing : Nat
  sleeping : Nat
  eating : Nat
deriving DecidableEq, Repr

/-- `distribution[item.activity] += 1` on a validated activity
string. -/
def bumpDistribution (d : ActivityDistribution) (a : String) :
    ActivityDistribution :=
  if a = "idle" then { d with idle := d.idle + 1 }
  else if a = "playing" then { d with playing := d.playing + 1 }
  else if a = "sleeping" then { d with sleeping := d.sleeping + 1 }
  else if a = "eating" then { d with eating := d.eating + 1 }
  else d

/-- `getActivityDistribution` from `metrics.ts`: parse the activity
log, drop nulls, filter to the trailing window, count by the `activity`
field of each surviving entry. -/
def getActivityDistribution (now hours : ℚ) (log : List JObj) :
    ActivityDistribution :=
  let parsed := log.filterMap parseActivityEntry
  let filtered := parsed.filter (fun e => getTimeCutoff now hours < e.timestamp)
  filtered.foldl (fun d e => bumpDistribution d e.activity) ⟨0, 0, 0, 0⟩

/-- `calculateAverage` from `utils.ts`: 0 on the empty list, else sum
divided by length. -/
def calculateAverage (numbers : List ℚ) : ℚ :=
  if numbers.length = 0 then 0
  else (numbers.foldl (fun sum num => sum + num) 0) / numbers.length

/-- The response-time samples entering `getSystemMetrics`' aggregates:
parse, drop nulls, project `responseTime`, keep positive values. -/
def systemTimes (responseTimes : List JObj) : List ℚ :=
  (((responseTimes.filterMap parseResponseTimeEntry)).map
      (fun e => e.responseTime)).filter (fun t => 0 < t)

/-- `Math.round` on an exact rational: floor of `x + 1/2`. -/
def jsRound (q : ℚ) : Int :=
  Int.floor (q + 1/2)

/-- `averageResponseTime` as reported by `getSystemMetrics`:
`Math.round(calculateAverage(times))`. -/
def averageResponseTime (responseTimes : List JObj) : Int :=
  jsRound (calculateAverage (systemTimes responseTimes))

lemma parseActivityEntry_logRecord (old new cause : String) (t : ℚ) :
    parseActivityEntry (activityLogRecord old new cause t) = none := by
  simp [parseActivityEntry, activityLogRecord, JObj.get, List.find?]

lemma filterMap_parseActivity_logRecords
    (recs : List (String × String × String × ℚ)) :
    List.filterMap
      (parseActivityEntry ∘ fun r => activityLogRecord r.1 r.2.1 r.2.2.1 r.2.2.2)
      recs = [] := by
  induction recs with
  | nil => rfl
  | cons r rest ih =>
      simp [List.filterMap_cons, Function.comp, parseActivityEntry_logRecord, ih]

/-- C3: the claim fails on the code.  The engine's `logActivityChange`
writes records with fields `oldActivity` / `newActivity` / `cause` /
`timestamp`, but `parseActivityEntry` validates a field named
`activity`, which no engine record has; every activity-transition
record is therefore rejected, and `getActivityDistribution` returns all
zero counts for any list of engine-written records — in particular a
single in-window transition to `playing` yields a `playing` count of 0,
not 1. -/
theorem c3_distribution_always_zero :
    (∀ (recs : List (String × String × String × ℚ)) (now hours : ℚ),
        getActivityDistribution now hours
          (recs.map (fun r => activityLogRecord r.1 r.2.1 r.2.2.1 r.2.2.2)) =
          ⟨0, 0, 0, 0⟩) ∧
      parseActivityEntry
        (activityLogRecord "idle" "playing" "autonomous_behavior" 0) = none ∧
      getActivityDistribution 0 24
        [activityLogRecord "idle" "playing" "autonomous_behavior" 0] =
        ⟨0, 0, 0, 0⟩ := by
  refine ⟨?_, parseActivityEntry_logRecord _ _ _ _, ?_⟩
  · intro recs now hours
    simp [getActivityDistribution, List.filterMap_map,
      filterMap_parseActivity_logRecords]
  · simp [getActivityDistribution, parseActivityEntry_logRecord]

/-- C7: `happinessTrend(24)` contains no entry older than 24 hours
before the query time (every surviving timestamp is strictly inside the
trailing 24-hour window) and is sorted ascending by timestamp. -/
theorem c7_trend_window_sorted (now : ℚ) (history : List JObj) :
    (∀ e ∈ getHappinessTrends now 24 history,
        now - 24 * 60 * 60 * 1000 < e.timestamp) ∧
      (getHappinessTrends now 24 history).Pairwise
        (fun a b => a.timestamp ≤ b.timestamp) := by
  constructor
  · intro e he
    have hmem : e ∈ filterByTimeRange
        (history.filterMap parseHappinessEntry) now 24 := by
      simpa [getHappinessTrends, sortByTimestamp] using he
    have := (List.mem_filter.mp hmem).2
    simpa [getTimeCutoff] using of_decide_eq_true this
  · have hs := @List.sorted_mergeSort HappinessEntry
      (fun a b : HappinessEntry => decide (a.timestamp ≤ b.timestamp))
      (fun a b c hab hbc => by
        simp only [decide_eq_true_eq] at *
        exact le_trans hab hbc)
      (fun a b => by
        simp only [Bool.or_eq_true, decide_eq_true_eq]
        exact le_total a.timestamp b.timestamp)
      (filterByTimeRange (history.filterMap parseHappinessEntry) now 24)
    refine List.Pairwise.imp ?_ hs
    intro a b h
    exact of_decide_eq_true h

lemma systemTimes_append_of_malformed (bad l : List JObj)
    (h : ∀ o ∈ bad, parseResponseTimeEntry o = none) :
    systemTimes (bad ++ l) = systemTimes l := by
  unfold systemTimes
  rw [List.filterMap_append, List.filterMap_eq_nil_iff.mpr h, List.nil_append]

/-- A malformed response-time record: `responseTime` holds a string. -/
def badResponseRecord : JObj :=
  [("command", JVal.s "feed"), ("responseTime", JVal.s "oops"),
   ("timestamp", JVal.n 5)]

/-- C8: malformed records are skipped by aggregation without affecting
the aggregate: any block of unparseable records contributes nothing to
the response-time samples, and the average over one malformed record
plus valid entries {10, 20, 30} is 20 (both as the exact
`calculateAverage` and after `Math.round`), not NaN. -/
theorem c8_malformed_skipped :
    (∀ bad l : List JObj, (∀ o ∈ bad, parseResponseTimeEntry o = none) →
        systemTimes (bad ++ l) = systemTimes l) ∧
      parseResponseTimeEntry badResponseRecord = none ∧
      calculateAverage (systemTimes
        [badResponseRecord, responseTimeLogRecord "feed" 10 1,
         responseTimeLogRecord "play" 20 2,
         responseTimeLogRecord "feed" 30 3]) = 20 ∧
      averageResponseTime
        [badResponseRecord, responseTimeLogRecord "feed" 10 1,
         responseTimeLogRecord "play" 20 2,
         responseTimeLogRecord "feed" 30 3] = 20 := by
  have hsys : systemTimes
      [badResponseRecord, responseTimeLogRecord "feed" 10 1,
       responseTimeLogRecord "play" 20 2,
       responseTimeLogRecord "feed" 30 3] = [10, 20, 30] := by
    simp [systemTimes, parseResponseTimeEntry, badResponseRecord,
      responseTimeLogRecord, JObj.get, List.find?, List.filterMap_cons]
  have havg : calculateAverage ([10, 20, 30] : List ℚ) = 20 := by
    norm_num [calculateAverage, List.foldl]
  refine ⟨systemTimes_append_of_malformed, by decide, ?_, ?_⟩
  · rw [hsys, havg]
  · show jsRound (calculateAverage (systemTimes _)) = 20
    rw [hsys, havg]
    simp only [jsRound]
    rw [Int.floor_eq_iff]
    norm_num

/-- Witness for C8's hypothesised conjunct: the malformed record is
rejected by the parser, and prepending it leaves the sample list
unchanged. -/
theorem c8_malformed_skipped_witness :
    (∀ o ∈ [badResponseRecord], parseResponseTimeEntry o = none) ∧
      systemTimes ([badResponseRecord] ++
          [responseTimeLogRecord "feed" 10 1]) =
        systemTimes [responseTimeLogRecord "feed" 10 1] :=
  ⟨by decide,
    c8_malformed_skipped.1 [badResponseRecord]
      [responseTimeLogRecord "feed" 10 1] (by decide)⟩

/-- The bot's `logHappinessChange` write: `lPush` then
`lTrim(0, 1999)`, keeping the newest 2000 records. -/
def writeHappiness (e : JObj) (l : List JObj) : List JObj :=
  (e :: l).take 2000

/-- The engine's `logActivityChange` write: `lPush` then
`lTrim(0, 999)`, keeping the newest 1000 records. -/
def writeActivity (e : JObj) (l : List JObj) : List JObj :=
  (e :: l).take 1000

/-- The bot's `logCommandMetrics` response-time write: `lPush` then
`lTrim(0, 999)`, keeping the newest 1000 records. -/
def writeResponse (e : JObj) (l : List JObj) : List JObj :=
  (e :: l).take 1000

/-- The three bounded metric series (each list is newest-first, as
`lPush` builds it). -/
structure MetricsStore where
  happinessHistory : List JObj
  activityLog : List JObj
  responseTimes : List JObj

/-- `runDataCleanup` from `metrics.ts`: `lTrim(happiness, 0, 2000)`,
`lTrim(activity, 0, 2000)`, `lTrim(responseTimes, 0, 1000)`.  `lTrim`
keeps the inclusive index range, so these retain up to 2001, 2001 and
1001 entries respectively. -/
def runDataCleanup (s : MetricsStore) : MetricsStore :=
  ⟨s.happinessHistory.take 2001, s.activityLog.take 2001,
   s.responseTimes.take 1001⟩

/-- A metrics-store mutation: one of the three capped writes, or a run
of the periodic cleanup job. -/
inductive MetricsOp where
  | wh (e : JObj)
  | wa (e : JObj)
  | wr (e : JObj)
  | clean

/-- Apply one metrics-store mutation. -/
def metricsStep (s : MetricsStore) : MetricsOp → MetricsStore
  | MetricsOp.wh e => { s with happinessHistory := writeHappiness e s.happinessHistory }
  | MetricsOp.wa e => { s with activityLog := writeActivity e s.activityLog }
  | MetricsOp.wr e => { s with responseTimes := writeResponse e s.responseTimes }
  | MetricsOp.clean => runDataCleanup s

/-- Run a sequence of metrics-store mutations. -/
def runMetrics (s : MetricsStore) (ops : List MetricsOp) : MetricsStore :=
  List.foldl metricsStep s ops

/-- The write-side caps: happiness 2000, activity 1000,
response-time 1000. -/
def InCaps (s : MetricsStore) : Prop :=
  s.happinessHistory.length ≤ 2000 ∧ s.activityLog.length ≤ 1000 ∧
    s.responseTimes.length ≤ 1000

/-- C6 counterexample: the cleanup job does not re-trim the series to
the caps 2000 / 1000 / 1000.  On series of length 3000 it leaves 2001
happiness entries, 2001 activity entries and 1001 response-time
entries — the activity and response-time series stay above their
caps. -/
theorem c6_cleanup_not_exact_counterexample :
    (runDataCleanup ⟨List.replicate 3000 ([] : JObj),
        List.replicate 3000 ([] : JObj),
        List.replicate 3000 ([] : JObj)⟩).happinessHistory.length = 2001 ∧
      (runDataCleanup ⟨List.replicate 3000 ([] : JObj),
        List.replicate 3000 ([] : JObj),
        List.replicate 3000 ([] : JObj)⟩).activityLog.length = 2001 ∧
      (runDataCleanup ⟨List.replicate 3000 ([] : JObj),
        List.replicate 3000 ([] : JObj),
        List.replicate 3000 ([] : JObj)⟩).responseTimes.length = 1001 ∧
      ¬(2001 ≤ 2000) ∧ ¬(2001 ≤ 1000) ∧ ¬(1001 ≤ 1000) := by
  refine ⟨?_, ?_, ?_, by norm_num, by norm_num, by norm_num⟩ <;>
    · simp only [runDataCleanup, List.length_take, List.length_replicate]
      omega

lemma metricsStep_inCaps {s : MetricsStore} (op : MetricsOp)
    (h : InCaps s) : InCaps (metricsStep s op) := by
  obtain ⟨h1, h2, h3⟩ := h
  cases op with
  | wh e =>
      simp only [metricsStep, writeHappiness, InCaps, List.length_take] at *
      omega
  | wa e =>
      simp only [metricsStep, writeActivity, InCaps, List.length_take] at *
      omega
  | wr e =>
      simp only [metricsStep, writeResponse, InCaps, List.length_take] at *
      omega
  | clean =>
      simp only [metricsStep, runDataCleanup, InCaps, List.length_take] at *
      omega

/-- C6 amended: every write keeps its series at or below the write-side
cap (2000 / 1000 / 1000) and the cleanup job preserves those bounds, so
along any sequence of writes and cleanup runs from a store within caps
no series ever exceeds its cap; on a store within the caps the cleanup
job is a no-op rather than a re-trim to the caps (it trims only to
2001 / 2001 / 1001); and a write to a full series — happiness at 2000,
activity at 1000, response-time at 1000 — evicts exactly the oldest
(last) entry of that series. -/
theorem c6_caps_amended :
    (∀ (s : MetricsStore) (ops : List MetricsOp),
        InCaps s → InCaps (runMetrics s ops)) ∧
      (∀ s : MetricsStore, InCaps s → runDataCleanup s = s) ∧
      (∀ (e : JObj) (l : List JObj), l.length = 2000 →
        writeHappiness e l = e :: l.dropLast) ∧
      (∀ (e : JObj) (l : List JObj), l.length = 1000 →
        writeActivity e l = e :: l.dropLast) ∧
      (∀ (e : JObj) (l : List JObj), l.length = 1000 →
        writeResponse e l = e :: l.dropLast) := by
  refine ⟨?_, ?_, ?_, ?_, ?_⟩
  · intro s ops h
    induction ops generalizing s with
    | nil => exact h
    | cons op rest ih => exact ih _ (metricsStep_inCaps op h)
  · intro s h
    obtain ⟨h1, h2, h3⟩ := h
    cases s with
    | mk a b c =>
        simp only [runDataCleanup]
        simp only [InCaps] at *
        rw [List.take_of_length_le (by omega), List.take_of_length_le (by omega),
          List.take_of_length_le (by omega)]
  · intro e l h
    simp only [writeHappiness, List.take_succ_cons, List.dropLast_eq_take, h]
  · intro e l h
    simp only [writeActivity, List.take_succ_cons, List.dropLast_eq_take, h]
  · intro e l h
    simp only [writeResponse, List.take_succ_cons, List.dropLast_eq_take, h]

/-- Witness for C6's amended theorem: the cap invariant along a
concrete op sequence, and the eviction clauses on concrete full
series. -/
theorem c6_caps_amended_witness :
    (InCaps ⟨[], [], []⟩ ∧
      InCaps (runMetrics ⟨[], [], []⟩
        [MetricsOp.wh [], MetricsOp.wa [], MetricsOp.clean])) ∧
      ((List.replicate 2000 ([] : JObj)).length = 2000 ∧
        writeHappiness [] (List.replicate 2000 ([] : JObj)) =
          [] :: (List.replicate 2000 ([] : JObj)).dropLast) ∧
      ((List.replicate 1000 ([] : JObj)).length = 1000 ∧
        writeActivity [] (List.replicate 1000 ([] : JObj)) =
          [] :: (List.replicate 1000 ([] : JObj)).dropLast) ∧
      ((List.replicate 1000 ([] : JObj)).length = 1000 ∧
        writeResponse [] (List.replicate 1000 ([] : JObj)) =
          [] :: (List.replicate 1000 ([] : JObj)).dropLast) :=
  ⟨⟨by norm_num [InCaps],
      c6_caps_amended.1 ⟨[], [], []⟩
        [MetricsOp.wh [], MetricsOp.wa [], MetricsOp.clean]
        (by norm_num [InCaps])⟩,
    ⟨List.length_replicate 2000 [],
      c6_caps_amended.2.2.1 [] (List.replicate 2000 ([] : JObj))
        (List.length_replicate 2000 [])⟩,
    ⟨List.length_replicate 1000 [],
      c6_caps_amended.2.2.2.1 [] (List.replicate 1000 ([] : JObj))
        (List.length_replicate 1000 [])⟩,
    ⟨List.length_replicate 1000 [],
      c6_caps_amended.2.2.2.2 [] (List.replicate 1000 ([] : JObj))
        (List.length_replicate 1000 [])⟩⟩

/-- `getPetState` in `bot.ts`: on a missing record it returns the
module constant `initialState`, whose `lastUpdate` was stamped once at
process start. -/
def getPetStateBot (stored : Option PetState) (startup : Int) : PetState :=
  match stored with
  | some s => s
  | none => initialState startup

/-- `getPetState` in the engine: on a missing record it builds the
default inline, stamping `lastUpdate` with `Date.now()` at the read. -/
def getPetStateEngine (stored : Option PetState) (now : Int) : PetState :=
  match stored with
  | some s => s
  | none => ⟨50, Activity.idle, now⟩

/-- C10 counterexample: with process startup at time 0 and an empty
store, the bot's `getPetState` executed at reader time 5000 returns
`lastUpdate = 0` (the frozen startup stamp), not the current time at
the reader. -/
theorem c10_bot_default_stale_counterexample :
    (getPetStateBot none 0).lastUpdate = 0 ∧
      (getPetStateBot none 0).lastUpdate ≠ 5000 := by
  exact ⟨rfl, by decide⟩

/-- C10 amended: when no record exists every read returns the default
happiness 50 and activity `idle` rather than failing; the engine's
`getPetState` stamps `lastUpdate` with the current time at the reader,
while the bot's returns the process-startup timestamp frozen in
`initialState`.  When a record exists both return it unchanged. -/
theorem c10_default_state_amended (startup now : Int) :
    (getPetStateBot none startup).happiness = 50 ∧
      (getPetStateBot none startup).activity = Activity.idle ∧
      (getPetStateBot none startup).lastUpdate = startup ∧
      (getPetStateEngine none now).happiness = 50 ∧
      (getPetStateEngine none now).activity = Activity.idle ∧
      (getPetStateEngine none now).lastUpdate = now ∧
      (∀ s : PetState, getPetStateBot (some s) startup = s ∧
        getPetStateEngine (some s) now = s) := by
  exact ⟨rfl, rfl, rfl, rfl, rfl, rfl, fun s => ⟨rfl, rfl⟩⟩
